import Mathlib

/-!
Shallow embedding of the matcha license-key manager core
(`internal/models`, `internal/database`, `internal/handlers`) and proofs
about its license lifecycle, provisioning pipeline, persistence-gateway
retry policy and email-settings invariant.

Conventions of the embedding:
* Go `time.Time` values are modelled as integers (`GoTime`); Go's
  `t.Before(u)` is the strict comparison `t < u`.  Every operation that
  reads the clock takes the current instant `now` as an explicit argument.
* Machine integers (`int`) are modelled as `Int`; overflow never matters
  at the magnitudes the program handles.
* The GORM-backed store is modelled as in-memory lists of rows; `db.Save`
  is an upsert keyed on the primary key, `db.Create` appends a fresh row.
  Store-level write errors are not modelled except where a claim depends
  on them (the SQLite foreign-key rejection used by product deletion).
* Go functions that can panic return `GoResult`, whose `panicked`
  constructor marks a runtime panic (distinct from a returned `error`,
  which is modelled as `Except`/`Option String`).
-/

namespace Matcha

/-- Go `time.Time` modelled as an integer instant; `t.Before(u)` is `t < u`. -/
abbrev GoTime := Int

/-- Row of the `products` table (embedding of `models.Product`; the
GORM-managed timestamps and the association slice are elided — the
association is carried by `LicenseKey.ProductID`). -/
structure Product where
  ID : Nat
  Name : String
  Description : String
  Version : String
  DefaultExpirationDays : Int
  DefaultUsageLimit : Int
deriving Repr, DecidableEq

/-- Row of the `customers` table (embedding of `models.Customer`). -/
structure Customer where
  ID : Nat
  Email : String
  Name : String
  FirstName : String
  LastName : String
  Company : String
deriving Repr, DecidableEq

/-- Row of the `license_keys` table (embedding of `models.LicenseKey`;
the embedded `Product`/`Customer` association structs are elided, the
foreign keys `ProductID`/`CustomerID` carry the relationship). -/
structure LicenseKey where
  ID : Nat
  Key : String
  ProductID : Nat
  CustomerID : Nat
  ExpiresAt : Option GoTime
  MaxActivations : Int
  CurrentActivations : Int
  UsageLimit : Int
  UsageCount : Int
  Metadata : String
  Status : String
  IsTrial : Bool
  LastValidatedAt : Option GoTime
deriving Repr, DecidableEq

/-- Row of the `email_settings` table (embedding of `models.EmailSettings`). -/
structure EmailSettings where
  ID : Nat
  Provider : String
  SMTPHost : String
  SMTPPort : Int
  SMTPUsername : String
  SMTPPassword : String
  SMTPEncryption : String
  FromEmail : String
  FromName : String
  IsActive : Bool
deriving Repr, DecidableEq

/-- Embedding of `LicenseKey.IsExpired`:
`lk.ExpiresAt != nil && lk.ExpiresAt.Before(time.Now())`. -/
def LicenseKey.IsExpired (now : GoTime) (lk : LicenseKey) : Bool :=
  match lk.ExpiresAt with
  | some t => decide (t < now)
  | none => false

/-- Embedding of `LicenseKey.IsValidForUse`:
`lk.Status == "active" && !lk.IsExpired() && lk.CurrentActivations < lk.MaxActivations`. -/
def LicenseKey.IsValidForUse (now : GoTime) (lk : LicenseKey) : Bool :=
  lk.Status == "active" && !(lk.IsExpired now) &&
    decide (lk.CurrentActivations < lk.MaxActivations)

/-- Embedding of `LicenseKey.IsActive`. -/
def LicenseKey.IsActive (lk : LicenseKey) : Bool :=
  lk.Status == "active"

/-- Embedding of `LicenseKey.IsRevoked`. -/
def LicenseKey.IsRevoked (lk : LicenseKey) : Bool :=
  lk.Status == "revoked"

/-- Embedding of `LicenseKey.UsageRemaining`: `-1` is the code's own
"unlimited" sentinel for `MaxActivations == 0`. -/
def LicenseKey.UsageRemaining (lk : LicenseKey) : Int :=
  if lk.MaxActivations == 0 then -1
  else
    let remaining := lk.MaxActivations - lk.CurrentActivations
    if remaining < 0 then 0 else remaining

/-- Embedding of `LicenseKey.IncrementUsage`.  The receiver is mutated and
saved in Go; here the updated row is returned in `Except.ok`, and the
error return (`"license key is not valid for use"`) leaves the row
untouched.  The `db.Save` write is modelled as succeeding. -/
def LicenseKey.IncrementUsage (now : GoTime) (lk : LicenseKey) : Except String LicenseKey :=
  if !(lk.IsValidForUse now) then
    .error "license key is not valid for use"
  else
    let lk1 := { lk with CurrentActivations := lk.CurrentActivations + 1 }
    let lk2 :=
      if decide (lk1.MaxActivations > 0) && decide (lk1.CurrentActivations ≥ lk1.MaxActivations) then
        { lk1 with Status := "expired" }
      else lk1
    .ok { lk2 with LastValidatedAt := some now }

/-- Embedding of `LicenseKey.Revoke`. -/
def LicenseKey.Revoke (lk : LicenseKey) : LicenseKey :=
  { lk with Status := "revoked" }

/-- Embedding of `LicenseKey.Reactivate`: succeeds (setting status
`"active"`) unless `IsExpired`, in which case it returns the error and
leaves the row untouched. -/
def LicenseKey.Reactivate (now : GoTime) (lk : LicenseKey) : Except String LicenseKey :=
  if !(lk.IsExpired now) then
    .ok { lk with Status := "active" }
  else
    .error "cannot reactivate expired license key"

/-- Repeated application of `IncrementUsage`: the row after `n`
consecutive calls, a failing call leaving the row unchanged (the Go
method returns the error before mutating anything). -/
def LicenseKey.iterIncrement (now : GoTime) (lk : LicenseKey) : Nat → LicenseKey
  | 0 => lk
  | n + 1 =>
    match (lk.iterIncrement now n).IncrementUsage now with
    | .ok lk2 => lk2
    | .error _ => lk.iterIncrement now n

/-- A concrete "unlimited" key: active, no expiration, `MaxActivations = 0`. -/
def unlimitedKey : LicenseKey :=
  { ID := 1, Key := "UNLIMITED-KEY", ProductID := 1, CustomerID := 1,
    ExpiresAt := none, MaxActivations := 0, CurrentActivations := 0,
    UsageLimit := 1, UsageCount := 0, Metadata := "", Status := "active",
    IsTrial := false, LastValidatedAt := none }

/-- C1: an active, never-expiring key with `MaxActivations = 0` and
`CurrentActivations = 0` fails `IsValidForUse` — the comparison
`CurrentActivations < MaxActivations` is `0 < 0` — even though the code's
own `UsageRemaining` reports the `-1` "unlimited" sentinel for the same
key.  This refutes the claim that such a key never fails the validity
check on the activation-count comparison. -/
theorem c1_unlimited_key_fails_validity :
    unlimitedKey.Status = "active" ∧
    unlimitedKey.ExpiresAt = none ∧
    unlimitedKey.MaxActivations = 0 ∧
    unlimitedKey.UsageRemaining = -1 ∧
    (∀ now : GoTime, unlimitedKey.IsValidForUse now = false) ∧
    (∀ now : GoTime, unlimitedKey.IncrementUsage now =
      .error "license key is not valid for use") := by
  refine ⟨rfl, rfl, rfl, rfl, fun now => rfl, fun now => rfl⟩

/-- C6: `Reactivate` fails (with the invalid-state error, leaving the row
untouched) exactly when `ExpiresAt` is non-null and strictly in the past,
independently of the stored `Status`; in every other case it returns the
row with `Status` set to `"active"`. -/
theorem c6_reactivate_guard (now : GoTime) (lk : LicenseKey) :
    lk.Reactivate now =
      match lk.ExpiresAt with
      | some t =>
          if t < now then Except.error "cannot reactivate expired license key"
          else Except.ok { lk with Status := "active" }
      | none => Except.ok { lk with Status := "active" } := by
  unfold LicenseKey.Reactivate LicenseKey.IsExpired
  cases h : lk.ExpiresAt with
  | none => simp
  | some t => by_cases ht : t < now <;> simp [ht]

/-- Row shape reached after `k ≥ 1` increments of a key that started
active at `CurrentActivations = 0` with ceiling `N`. -/
def iterState (now : GoTime) (lk : LicenseKey) (N k : Nat) : LicenseKey :=
  { lk with CurrentActivations := (k : Int),
            Status := if N ≤ k then "expired" else "active",
            LastValidatedAt := some now }

lemma IncrementUsage_step (now : GoTime) (lk r : LicenseKey) (N k : Nat)
    (hr : r = { lk with CurrentActivations := (k : Int), Status := "active",
                        LastValidatedAt := r.LastValidatedAt })
    (hmax : lk.MaxActivations = (N : Int)) (hexp : lk.IsExpired now = false)
    (hk : k < N) :
    r.IncrementUsage now = .ok (iterState now lk N (k + 1)) := by
  have hexp2 : r.IsExpired now = false := by
    rw [hr]
    simpa [LicenseKey.IsExpired] using hexp
  have hvalid : r.IsValidForUse now = true := by
    rw [LicenseKey.IsValidForUse, hexp2]
    rw [hr]
    simp [hmax]
    exact_mod_cast hk
  rw [LicenseKey.IncrementUsage, hvalid]
  simp only [Bool.not_true, Bool.false_eq_true, if_false]
  rw [hr]
  simp only [iterState, hmax]
  by_cases hle : N ≤ k + 1
  · have hge : ((k : Int) + 1 ≥ (N : Int)) := by exact_mod_cast hle
    have hpos : ((0 : Int) < (N : Int)) := by
      exact_mod_cast Nat.lt_of_le_of_lt (Nat.zero_le k) hk
    simp [hge, hpos, hle]
  · have hge : ¬ ((k : Int) + 1 ≥ (N : Int)) := by
      intro h
      exact hle (by exact_mod_cast h)
    simp [hge, hle]

lemma eta_active_zero (lk : LicenseKey) (hst : lk.Status = "active")
    (hcur : lk.CurrentActivations = 0) :
    lk = { lk with CurrentActivations := ((0 : Nat) : Int), Status := "active",
                   LastValidatedAt := lk.LastValidatedAt } := by
  cases lk
  simp_all

lemma iterIncrement_eq_iterState (now : GoTime) (lk : LicenseKey) (N : Nat)
    (hst : lk.Status = "active") (hcur : lk.CurrentActivations = 0)
    (hmax : lk.MaxActivations = (N : Int)) (hexp : lk.IsExpired now = false) :
    ∀ k, k ≤ N → lk.iterIncrement now k =
      if k = 0 then lk else iterState now lk N k := by
  intro k
  induction k with
  | zero => intro _; simp [LicenseKey.iterIncrement]
  | succ k ih =>
    intro hkN
    have hk : k < N := Nat.lt_of_succ_le hkN
    have hstep : (lk.iterIncrement now k).IncrementUsage now =
        .ok (iterState now lk N (k + 1)) := by
      rw [ih (Nat.le_of_lt hk)]
      by_cases hk0 : k = 0
      · subst hk0
        simp only [if_pos rfl]
        exact IncrementUsage_step now lk lk N 0 (eta_active_zero lk hst hcur) hmax hexp hk
      · rw [if_neg hk0]
        refine IncrementUsage_step now lk _ N k ?_ hmax hexp hk
        simp [iterState, Nat.not_le.mpr hk]
    simp [LicenseKey.iterIncrement, hstep, Nat.succ_ne_zero]

/-- C4: a key starting at `CurrentActivations = 0`, status `"active"`,
not date-expired, with ceiling `MaxActivations = N > 0`: each of the
first `N` `IncrementUsage` calls succeeds, after exactly `N` calls the
row holds `CurrentActivations = N` with status `"expired"`, and the
`(N+1)`-th call fails with the invalid-state error leaving the row
unchanged. -/
theorem c4_activation_ceiling (now : GoTime) (lk : LicenseKey) (N : Nat)
    (hN : 0 < N) (hst : lk.Status = "active") (hcur : lk.CurrentActivations = 0)
    (hmax : lk.MaxActivations = (N : Int)) (hexp : lk.IsExpired now = false) :
    (∀ k, k < N → (lk.iterIncrement now k).IncrementUsage now =
        .ok (lk.iterIncrement now (k + 1))) ∧
    (lk.iterIncrement now N).CurrentActivations = (N : Int) ∧
    (lk.iterIncrement now N).Status = "expired" ∧
    (lk.iterIncrement now N).IncrementUsage now =
      .error "license key is not valid for use" ∧
    lk.iterIncrement now (N + 1) = lk.iterIncrement now N := by
  have hspec := iterIncrement_eq_iterState now lk N hst hcur hmax hexp
  have hiterN : lk.iterIncrement now N = iterState now lk N N := by
    rw [hspec N (Nat.le_refl N), if_neg (Nat.pos_iff_ne_zero.mp hN)]
  have hfail : (lk.iterIncrement now N).IncrementUsage now =
      .error "license key is not valid for use" := by
    rw [hiterN, LicenseKey.IncrementUsage]
    have hinvalid : (iterState now lk N N).IsValidForUse now = false := by
      simp [LicenseKey.IsValidForUse, iterState]
    rw [hinvalid]
    simp
  refine ⟨?_, ?_, ?_, hfail, ?_⟩
  · intro k hk
    have hstep : (lk.iterIncrement now k).IncrementUsage now =
        .ok (iterState now lk N (k + 1)) := by
      rw [hspec k (Nat.le_of_lt hk)]
      by_cases hk0 : k = 0
      · subst hk0
        simp only [if_pos rfl]
        exact IncrementUsage_step now lk lk N 0 (eta_active_zero lk hst hcur) hmax hexp hk
      · rw [if_neg hk0]
        refine IncrementUsage_step now lk _ N k ?_ hmax hexp hk
        simp [iterState, Nat.not_le.mpr hk]
    rw [hstep, hspec (k + 1) (Nat.succ_le_of_lt hk), if_neg (Nat.succ_ne_zero k)]
  · rw [hiterN]; simp [iterState]
  · rw [hiterN]; simp [iterState]
  · rw [LicenseKey.iterIncrement, hfail]

/-- A concrete key with ceiling 2, used to witness C4. -/
def lk0 : LicenseKey :=
  { ID := 2, Key := "CEILING-KEY", ProductID := 1, CustomerID := 1,
    ExpiresAt := some 100, MaxActivations := 2, CurrentActivations := 0,
    UsageLimit := 1, UsageCount := 0, Metadata := "", Status := "active",
    IsTrial := false, LastValidatedAt := none }

/-- Witness for C4 at the concrete key `lk0` (`N = 2`, `now = 0`). -/
theorem c4_activation_ceiling_witness :
    (LicenseKey.iterIncrement 0 lk0 2).Status = "expired" ∧
    (LicenseKey.iterIncrement 0 lk0 2).CurrentActivations = 2 ∧
    (LicenseKey.iterIncrement 0 lk0 2).IncrementUsage 0 =
      .error "license key is not valid for use" := by
  have h := c4_activation_ceiling 0 lk0 2 (by decide) rfl rfl rfl rfl
  exact ⟨h.2.2.1, h.2.1, h.2.2.2.1⟩

/-- Embedding of `database.contains` (recursive substring check):
`len(s) >= len(substr) && (s == substr || len(substr) == 0 ||
s[0:len(substr)] == substr || contains(s[1:], substr))`.  The recursive
call on `s[1:]` is only reachable for non-empty `s` (short-circuit
evaluation), so the empty case returns `false` there. -/
def goContains (substr : List Char) : List Char → Bool
  | [] =>
    decide (substr.length ≤ ([] : List Char).length) &&
      (([] : List Char) == substr || substr.length == 0 ||
        ([] : List Char).take substr.length == substr)
  | c :: t =>
    decide (substr.length ≤ (c :: t).length) &&
      ((c :: t) == substr || substr.length == 0 ||
        (c :: t).take substr.length == substr || goContains substr t)

/-- Embedding of `database.isLockError` on the error message of a failed
write (`none` stands for Go's `nil` error). -/
def isLockError : Option String → Bool
  | none => false
  | some errStr =>
    goContains "database is locked".toList errStr.toList ||
      goContains "SQLITE_BUSY".toList errStr.toList ||
      goContains "database table is locked".toList errStr.toList ||
      goContains "cannot start a transaction within a transaction".toList errStr.toList

/-- Embedding of the retry loop in `database.PerformWrite`.  The stateful
operation closure is modelled as the sequence of its results per
invocation (`op i` is what the `i`-th call returns; `none` = success).
`fuel` counts the loop iterations still allowed by `attempt <= maxRetries`
and is `maxRetries + 1 - attempt`; when it runs out the loop exits and the
function returns the terminal message
`"database write failed after %d attempts"`.  The backoff sleeps and the
jitter only affect timing and are elided.  The result pairs the returned
error (`none` = nil) with the number of times the operation was invoked. -/
def performWriteLoop (op : Nat → Option String) (maxRetries : Nat) :
    Nat → Nat → Option String × Nat
  | _, 0 =>
    (some ("database write failed after " ++ toString (maxRetries + 1) ++ " attempts"), 0)
  | attempt, fuel + 1 =>
    match op attempt with
    | none => (none, 1)
    | some e =>
      if isLockError (some e) && decide (attempt < maxRetries) then
        let r := performWriteLoop op maxRetries (attempt + 1) fuel
        (r.1, r.2 + 1)
      else (some e, 1)

/-- Embedding of `database.PerformWrite`: `maxRetries = 5`, loop from
`attempt = 0` while `attempt <= maxRetries` (6 iterations of fuel). -/
def PerformWrite (op : Nat → Option String) : Option String × Nat :=
  performWriteLoop op 5 0 6

/-- An operation that reports SQLite contention on every invocation. -/
def alwaysLocked : Nat → Option String := fun _ => some "database is locked"

/-- An operation that reports contention on its first two invocations
(attempts 1 and 2) and succeeds on the third. -/
def lockedTwice : Nat → Option String := fun n =>
  if n < 2 then some "database is locked" else none

/-- C2: under an always-contended operation, `PerformWrite` invokes the
operation exactly 6 times (1 initial + 5 retries) — but it then returns
the last contention error itself (`"database is locked"`), not the
terminal `"database write failed after 6 attempts"` message, which is
unreachable (at the final attempt the guard `attempt < maxRetries` fails
and the raw error is returned before the loop can exhaust).  The
success-on-third-attempt half of the claim holds: 3 invocations, nil
error. -/
theorem c2_retry_bound :
    PerformWrite alwaysLocked = (some "database is locked", 6) ∧
    (some "database is locked" : Option String) ≠
      some ("database write failed after " ++ toString (5 + 1) ++ " attempts") ∧
    PerformWrite lockedTwice = (none, 3) := by
  refine ⟨by decide, by decide, by decide⟩

/-- GORM `UPDATE email_settings SET is_active = false WHERE id != ?`:
deactivate every row other than `id`. -/
def deactivateOthers (rows : List EmailSettings) (id : Nat) : List EmailSettings :=
  rows.map fun r => if r.ID ≠ id then { r with IsActive := false } else r

/-- GORM `db.Save(es)`: update the row with `es`'s primary key, or insert
it when no such row exists. -/
def upsert (rows : List EmailSettings) (es : EmailSettings) : List EmailSettings :=
  if rows.any fun r => r.ID == es.ID then
    rows.map fun r => if r.ID == es.ID then es else r
  else rows ++ [es]

/-- Embedding of `EmailSettings.Save`: when the incoming row is active,
first deactivate every other row, then save the row itself. -/
def EmailSettings.Save (rows : List EmailSettings) (es : EmailSettings) : List EmailSettings :=
  upsert (if es.IsActive then deactivateOthers rows es.ID else rows) es

/-- Embedding of `EmailSettings.Activate`: inside one transaction,
deactivate every other row, set `IsActive := true` on the target and save
it.  The transaction is modelled as the composed state change (the
rollback paths only fire on store errors, which are not modelled). -/
def EmailSettings.Activate (rows : List EmailSettings) (es : EmailSettings) : List EmailSettings :=
  upsert (deactivateOthers rows es.ID) { es with IsActive := true }

/-- An operation of the email-settings state machine. -/
inductive ESOp where
  | save (es : EmailSettings)
  | activate (es : EmailSettings)
deriving Repr, DecidableEq

/-- Apply one operation to the table. -/
def applyESOp (rows : List EmailSettings) : ESOp → List EmailSettings
  | .save es => EmailSettings.Save rows es
  | .activate es => EmailSettings.Activate rows es

/-- Apply a sequence of operations, left to right. -/
def applyESOps (rows : List EmailSettings) : List ESOp → List EmailSettings
  | [] => rows
  | op :: ops => applyESOps (applyESOp rows op) ops

/-- Number of rows with `IsActive = true`. -/
def countActive (rows : List EmailSettings) : Nat :=
  (rows.filter fun r => r.IsActive).length

/-- Whether an operation activates a row: an `activate`, or a `save` of a
row whose `IsActive` is true. -/
def isActivating : ESOp → Bool
  | .save es => es.IsActive
  | .activate _ => true

/-- Whether some operation of the sequence activates a row. -/
def hasActivating (ops : List ESOp) : Bool :=
  ops.any isActivating

/-- A concrete settings row (inactive). -/
def esRow1 : EmailSettings :=
  { ID := 1, Provider := "smtp", SMTPHost := "smtp.example.org", SMTPPort := 587,
    SMTPUsername := "u", SMTPPassword := "p", SMTPEncryption := "tls",
    FromEmail := "noreply@example.org", FromName := "Matcha", IsActive := false }

/-- C5 counterexample: starting from the empty table (zero active rows,
so at most one), the sequence `[activate row1, save row1-with-IsActive-false]`
contains an activating operation, yet the post-state has zero active rows:
`Save` of an inactive row simply overwrites the previously activated row.
This refutes "exactly one row active if any activate (or save with
isActive = true) occurred in the sequence". -/
theorem c5_counterexample :
    hasActivating [ESOp.activate esRow1, ESOp.save esRow1] = true ∧
    countActive (applyESOps [] [ESOp.activate esRow1, ESOp.save esRow1]) = 0 := by
  refine ⟨by decide, by decide⟩

lemma countActive_eq_countP (rows : List EmailSettings) :
    countActive rows = rows.countP fun r => r.IsActive := by
  rw [countActive, List.countP_eq_length_filter]

lemma ids_deactivateOthers (rows : List EmailSettings) (id : Nat) :
    (deactivateOthers rows id).map EmailSettings.ID = rows.map EmailSettings.ID := by
  rw [deactivateOthers, List.map_map]
  refine List.map_congr_left ?_
  intro r _
  by_cases h : r.ID = id <;> simp [h]

lemma ids_upsert_present (rows : List EmailSettings) (es : EmailSettings)
    (h : (rows.any fun r => r.ID == es.ID) = true) :
    (upsert rows es).map EmailSettings.ID = rows.map EmailSettings.ID := by
  rw [upsert, if_pos h, List.map_map]
  refine List.map_congr_left ?_
  intro r _
  by_cases hr : r.ID = es.ID <;> simp [hr]

lemma nodup_ids_upsert (rows : List EmailSettings) (es : EmailSettings)
    (h : (rows.map EmailSettings.ID).Nodup) :
    ((upsert rows es).map EmailSettings.ID).Nodup := by
  by_cases hp : (rows.any fun r => r.ID == es.ID) = true
  · rw [ids_upsert_present rows es hp]
    exact h
  · rw [upsert, if_neg hp, List.map_append]
    rw [List.nodup_append]
    refine ⟨h, by simp, ?_⟩
    intro a ha hb
    simp only [List.map_cons, List.map_nil, List.mem_singleton] at hb
    subst hb
    simp only [List.any_eq_true, beq_iff_eq, not_exists, not_and] at hp
    push_neg at hp
    obtain ⟨r, hr, hid⟩ := List.mem_map.mp ha
    exact hp r hr hid

lemma inactive_of_mem_deactivateOthers (rows : List EmailSettings) (id : Nat)
    (r : EmailSettings) (hr : r ∈ deactivateOthers rows id) (hne : r.ID ≠ id) :
    r.IsActive = false := by
  rw [deactivateOthers] at hr
  obtain ⟨r0, hr0, hmap⟩ := List.mem_map.mp hr
  by_cases h0 : r0.ID = id
  · rw [if_neg (by simp [h0])] at hmap
    subst hmap
    exact absurd h0 hne
  · rw [if_pos (by simp [h0])] at hmap
    subst hmap
    rfl

lemma countP_id_eq_one (l : List EmailSettings) (a : Nat)
    (hnodup : (l.map EmailSettings.ID).Nodup) (hmem : a ∈ l.map EmailSettings.ID) :
    (l.countP fun r => r.ID == a) = 1 := by
  have h := List.count_eq_one_of_mem hnodup hmem
  rw [List.count_eq_countP, List.countP_map] at h
  exact h

lemma countActive_upsert_deact (rows : List EmailSettings) (es : EmailSettings)
    (hes : es.IsActive = true) (hnodup : (rows.map EmailSettings.ID).Nodup) :
    countActive (upsert (deactivateOthers rows es.ID) es) = 1 := by
  have hids : (deactivateOthers rows es.ID).map EmailSettings.ID =
      rows.map EmailSettings.ID := ids_deactivateOthers rows es.ID
  by_cases hp : ((deactivateOthers rows es.ID).any fun r => r.ID == es.ID) = true
  · rw [upsert, if_pos hp, countActive_eq_countP, List.countP_map]
    have hcongr : ((deactivateOthers rows es.ID).countP
          ((fun r => r.IsActive) ∘ fun r => if r.ID == es.ID then es else r)) =
        ((deactivateOthers rows es.ID).countP fun r => r.ID == es.ID) := by
      refine List.countP_congr ?_
      intro r hr
      by_cases hid : r.ID = es.ID
      · simp [hid, hes]
      · simp [hid, inactive_of_mem_deactivateOthers rows es.ID r hr hid]
    rw [hcongr]
    refine countP_id_eq_one _ es.ID (hids ▸ hnodup) ?_
    simp only [List.any_eq_true, beq_iff_eq] at hp
    obtain ⟨r, hr, hid⟩ := hp
    exact List.mem_map.mpr ⟨r, hr, hid⟩
  · rw [upsert, if_neg hp, countActive_eq_countP, List.countP_append]
    have hzero : ((deactivateOthers rows es.ID).countP fun r => r.IsActive) = 0 := by
      rw [List.countP_eq_zero]
      intro r hr
      simp only [List.any_eq_true, beq_iff_eq, not_exists, not_and] at hp
      push_neg at hp
      by_cases hid : r.ID = es.ID
      · exact absurd hid (hp r hr)
      · simp [inactive_of_mem_deactivateOthers rows es.ID r hr hid]
    rw [hzero]
    simp [hes]

lemma countActive_Save_active (rows : List EmailSettings) (es : EmailSettings)
    (hes : es.IsActive = true) (hnodup : (rows.map EmailSettings.ID).Nodup) :
    countActive (EmailSettings.Save rows es) = 1 := by
  rw [EmailSettings.Save, if_pos hes]
  exact countActive_upsert_deact rows es hes hnodup

lemma countActive_Activate_eq_one (rows : List EmailSettings) (es : EmailSettings)
    (hnodup : (rows.map EmailSettings.ID).Nodup) :
    countActive (EmailSettings.Activate rows es) = 1 := by
  rw [EmailSettings.Activate]
  exact countActive_upsert_deact rows { es with IsActive := true } rfl hnodup

lemma countActive_Save_inactive (rows : List EmailSettings) (es : EmailSettings)
    (hes : es.IsActive = false) :
    countActive (EmailSettings.Save rows es) ≤ countActive rows := by
  rw [EmailSettings.Save, if_neg (by simp [hes]), upsert]
  by_cases hp : (rows.any fun r => r.ID == es.ID) = true
  · rw [if_pos hp, countActive_eq_countP, countActive_eq_countP, List.countP_map]
    refine List.countP_mono_left ?_
    intro r _
    by_cases hid : r.ID = es.ID <;> simp [hid, hes]
  · rw [if_neg hp, countActive_eq_countP, countActive_eq_countP, List.countP_append]
    simp [hes]

lemma nodup_ids_applyESOp (rows : List EmailSettings) (op : ESOp)
    (hnodup : (rows.map EmailSettings.ID).Nodup) :
    ((applyESOp rows op).map EmailSettings.ID).Nodup := by
  cases op with
  | save es =>
    rw [applyESOp, EmailSettings.Save]
    by_cases hes : es.IsActive = true
    · rw [if_pos hes]
      exact nodup_ids_upsert _ es ((ids_deactivateOthers rows es.ID).symm ▸ hnodup)
    · rw [if_neg hes]
      exact nodup_ids_upsert rows es hnodup
  | activate es =>
    rw [applyESOp, EmailSettings.Activate]
    exact nodup_ids_upsert _ _ ((ids_deactivateOthers rows es.ID).symm ▸ hnodup)

lemma countActive_applyESOp_le (rows : List EmailSettings) (op : ESOp)
    (h1 : countActive rows ≤ 1) (hnodup : (rows.map EmailSettings.ID).Nodup) :
    countActive (applyESOp rows op) ≤ 1 := by
  cases op with
  | save es =>
    by_cases hes : es.IsActive = true
    · exact le_of_eq (countActive_Save_active rows es hes hnodup)
    · exact le_trans
        (countActive_Save_inactive rows es (Bool.not_eq_true es.IsActive ▸ hes)) h1
  | activate es =>
    exact le_of_eq (countActive_Activate_eq_one rows es hnodup)

lemma countActive_applyESOp_activating (rows : List EmailSettings) (op : ESOp)
    (hop : isActivating op = true) (hnodup : (rows.map EmailSettings.ID).Nodup) :
    countActive (applyESOp rows op) = 1 := by
  cases op with
  | save es => exact countActive_Save_active rows es hop hnodup
  | activate es => exact countActive_Activate_eq_one rows es hnodup

lemma applyESOps_invariant (ops : List ESOp) :
    ∀ rows : List EmailSettings, countActive rows ≤ 1 →
      (rows.map EmailSettings.ID).Nodup →
      countActive (applyESOps rows ops) ≤ 1 ∧
        ((applyESOps rows ops).map EmailSettings.ID).Nodup := by
  induction ops with
  | nil => intro rows h1 h2; exact ⟨h1, h2⟩
  | cons op ops ih =>
    intro rows h1 h2
    rw [applyESOps]
    exact ih (applyESOp rows op) (countActive_applyESOp_le rows op h1 h2)
      (nodup_ids_applyESOp rows op h2)

lemma applyESOps_append (l1 l2 : List ESOp) :
    ∀ rows : List EmailSettings,
      applyESOps rows (l1 ++ l2) = applyESOps (applyESOps rows l1) l2 := by
  induction l1 with
  | nil => intro rows; rfl
  | cons op ops ih => intro rows; rw [List.cons_append, applyESOps, applyESOps, ih]

/-- C5 (amended): starting from a table whose primary keys are distinct
and with at most one active row, every sequence of `Save`/`Activate`
operations preserves "at most one row active"; and whenever the final
operation of the sequence is an activating one (an `Activate`, or a
`Save` of a row with `IsActive = true`), exactly one row is active
afterwards.  (A trailing `Save` of an inactive row can bring the count
back to zero, which is why the count after an arbitrary sequence is not
determined by whether an activating operation occurred somewhere in it —
see the counterexample.) -/
theorem c5_single_active_invariant (rows : List EmailSettings) (ops : List ESOp)
    (h1 : countActive rows ≤ 1) (h2 : (rows.map EmailSettings.ID).Nodup) :
    countActive (applyESOps rows ops) ≤ 1 ∧
    (∀ front op, ops = front ++ [op] → isActivating op = true →
      countActive (applyESOps rows ops) = 1) := by
  refine ⟨(applyESOps_invariant ops rows h1 h2).1, ?_⟩
  intro front op hops hop
  subst hops
  rw [applyESOps_append front [op] rows]
  have hmid := applyESOps_invariant front rows h1 h2
  rw [applyESOps, applyESOps]
  exact countActive_applyESOp_activating _ op hop hmid.2

/-- Witness for C5 (amended) at a concrete input: activating `esRow1` on
the empty table yields exactly one active row. -/
theorem c5_single_active_invariant_witness :
    countActive (applyESOps [] [ESOp.activate esRow1]) = 1 :=
  (c5_single_active_invariant [] [ESOp.activate esRow1] (by decide) (by decide)).2
    [] (ESOp.activate esRow1) rfl (by decide)

/-- Outcome of a Go computation that can panic: `ok` carries the normal
result, `panicked` marks a runtime panic (distinct from a returned
`error` value). -/
inductive GoResult (α : Type) where
  | ok (val : α)
  | panicked
deriving Repr, DecidableEq

/-- Go string slicing `s[:j]` with an `int` upper bound: panics unless
`0 <= j <= len(s)`. -/
def goSliceTo (s : String) (j : Int) : GoResult String :=
  if 0 ≤ j ∧ j ≤ (s.length : Int) then
    .ok ((s.toList.take j.toNat).asString)
  else .panicked

/-- Embedding of `Customer.FindOrCreateByEmail`: look the row up by
email; on a miss, derive the name when the supplied one is empty via
`email[:len(email)-len("@domain.com")]` (which panics when the slice
bound is negative) and insert a fresh row.  `freshID` stands for the
store-assigned primary key; the insert itself is modelled as succeeding
(the email is absent, so the uniqueness constraint cannot fire).  Returns
the customer together with the updated table. -/
def FindOrCreateByEmail (customers : List Customer) (email name : String)
    (freshID : Nat) : GoResult (Customer × List Customer) :=
  match customers.find? fun c => c.Email == email with
  | some c => .ok (c, customers)
  | none =>
    let nameR : GoResult String :=
      if name = "" then
        goSliceTo email ((email.length : Int) - ("@domain.com".length : Int))
      else .ok name
    match nameR with
    | .panicked => .panicked
    | .ok name2 =>
      let c : Customer :=
        { ID := freshID, Email := email, Name := name2,
          FirstName := "", LastName := "", Company := "" }
      .ok (c, customers ++ [c])

/-- The local part of an email address — the portion before the first
`'@'`.  Written from the spec's words ("the local part of the email"),
for comparison with the name derivation actually performed by
`FindOrCreateByEmail`. -/
def specLocalPart (email : String) : String :=
  (email.toList.takeWhile fun c => c ≠ '@').asString

/-- C3 counterexample: creating a customer for `"alice@example.org"`
(17 characters, domain part 11 characters) with an empty display name
stores the name `"alice@"` — the email minus its last 11 characters —
whereas the local part of that email is `"alice"`.  The claim that the
created name equals the local part fails whenever the domain part is not
exactly 10 characters long. -/
theorem c3_name_not_local_part :
    FindOrCreateByEmail [] "alice@example.org" "" 7 =
      .ok ({ ID := 7, Email := "alice@example.org", Name := "alice@",
             FirstName := "", LastName := "", Company := "" },
           [{ ID := 7, Email := "alice@example.org", Name := "alice@",
              FirstName := "", LastName := "", Company := "" }]) ∧
    specLocalPart "alice@example.org" = "alice" ∧
    ("alice@" : String) ≠ "alice" := by
  refine ⟨by decide, by decide, by decide⟩

/-- C3 (amended): on a miss with an empty supplied name and an email of
at least 11 characters (`len("@domain.com")`), the created customer's
name is the email with its last 11 characters removed — the local part
only when the domain part is exactly 10 characters long. -/
theorem c3_name_drops_last_eleven (customers : List Customer) (email : String)
    (freshID : Nat)
    (hmiss : (customers.find? fun c => c.Email == email) = none)
    (hlen : 11 ≤ email.length) :
    FindOrCreateByEmail customers email "" freshID =
      .ok ({ ID := freshID, Email := email,
             Name := (email.toList.take (email.length - 11)).asString,
             FirstName := "", LastName := "", Company := "" },
           customers ++
             [{ ID := freshID, Email := email,
                Name := (email.toList.take (email.length - 11)).asString,
                FirstName := "", LastName := "", Company := "" }]) := by
  rw [FindOrCreateByEmail, hmiss]
  have hcond : (0 : Int) ≤ (email.length : Int) - (("@domain.com".length : Nat) : Int) ∧
      (email.length : Int) - (("@domain.com".length : Nat) : Int) ≤ (email.length : Int) := by
    constructor
    · have : (11 : Int) ≤ (email.length : Int) := by exact_mod_cast hlen
      simp only [show ("@domain.com".length : Int) = 11 from rfl]
      omega
    · simp only [show ("@domain.com".length : Int) = 11 from rfl]
      omega
  rw [if_pos rfl, goSliceTo, if_pos hcond]
  have htoNat : ((email.length : Int) - (("@domain.com".length : Nat) : Int)).toNat =
      email.length - 11 := by
    simp only [show ("@domain.com".length : Int) = 11 from rfl]
    omega
  rw [htoNat]

/-- Witness for C3 (amended): `"alice@example.org"` has no row and 17
characters, and the created name is `"alice@"`. -/
theorem c3_name_drops_last_eleven_witness :
    FindOrCreateByEmail [] "alice@example.org" "" 7 =
      .ok ({ ID := 7, Email := "alice@example.org", Name := "alice@",
             FirstName := "", LastName := "", Company := "" },
           [{ ID := 7, Email := "alice@example.org", Name := "alice@",
              FirstName := "", LastName := "", Company := "" }]) := by
  have h := c3_name_drops_last_eleven [] "alice@example.org" 7 rfl (by decide)
  simpa using h

/-- C9: on a miss with an empty supplied name and an email shorter than
11 characters, the name-derivation slice `email[:len(email)-11]` has a
negative upper bound and `FindOrCreateByEmail` panics — it neither
returns a customer nor reaches the store insert (the only step that
could return an `error`). -/
theorem c9_short_email_panics (customers : List Customer) (email : String)
    (freshID : Nat)
    (hmiss : (customers.find? fun c => c.Email == email) = none)
    (hlen : email.length < 11) :
    FindOrCreateByEmail customers email "" freshID = .panicked := by
  rw [FindOrCreateByEmail, hmiss]
  have hcond : ¬ ((0 : Int) ≤ (email.length : Int) - (("@domain.com".length : Nat) : Int) ∧
      (email.length : Int) - (("@domain.com".length : Nat) : Int) ≤ (email.length : Int)) := by
    intro h
    have h11 : ((email.length : Nat) : Int) < 11 := by exact_mod_cast hlen
    have := h.1
    simp only [show ("@domain.com".length : Int) = 11 from rfl] at this
    omega
  rw [if_pos rfl, goSliceTo, if_neg hcond]

/-- Witness for C9 at the 5-character email `"a@b.c"`. -/
theorem c9_short_email_panics_witness :
    FindOrCreateByEmail [] "a@b.c" "" 3 = .panicked :=
  c9_short_email_panics [] "a@b.c" 3 rfl (by decide)

/-- Nanoseconds per day: `time.AddDate(0, 0, days)` is modelled as
adding `days` fixed-length days to the instant. -/
def nsPerDay : Int := 86400000000000

/-- Embedding of `Product.GenerateLicenseKeyFor`: a fresh key row bound
to the product and customer, expiring `DefaultExpirationDays` days from
now, with the activation ceiling copied from `DefaultUsageLimit` and
status `"active"`.  The 32-character random token and the store-assigned
primary key are supplied as `freshKey`/`freshID`; the unset columns take
their GORM defaults (`UsageLimit` 1, `UsageCount` 0). -/
def Product.GenerateLicenseKeyFor (p : Product) (customer : Customer)
    (now : GoTime) (freshKey : String) (freshID : Nat) : LicenseKey :=
  { ID := freshID, Key := freshKey, ProductID := p.ID, CustomerID := customer.ID,
    ExpiresAt := some (now + p.DefaultExpirationDays * nsPerDay),
    MaxActivations := p.DefaultUsageLimit, CurrentActivations := 0,
    UsageLimit := 1, UsageCount := 0, Metadata := "", Status := "active",
    IsTrial := false, LastValidatedAt := none }

/-- Embedding of Go `strconv.Atoi`: an optional sign followed by at
least one decimal digit; anything else is an error (`none`).  Overflow
is not modelled (`Int` is unbounded). -/
def goAtoi (s : String) : Option Int :=
  let sd : Int × List Char :=
    match s.toList with
    | '+' :: rest => (1, rest)
    | '-' :: rest => (-1, rest)
    | l => (1, l)
  if sd.2 = [] ∨ ¬ sd.2.all Char.isDigit then none
  else some (sd.1 * sd.2.foldl (fun acc c => acc * 10 + ((c.toNat : Int) - ('0'.toNat : Int))) 0)

/-- The relational store as seen by the webhook and API handlers. -/
structure Store where
  products : List Product
  customers : List Customer
  licenseKeys : List LicenseKey
deriving Repr, DecidableEq

/-- Embedding of `WebhookHandler.processSuccessfulPayment`.  Validation
failures (empty email, empty or unparseable product identifier, unknown
product) are logged and swallowed: the function returns a nil error and
touches nothing.  Otherwise it finds-or-creates the customer (which can
panic, see `FindOrCreateByEmail`), issues a license key from the
product's defaults, folds the serialized payment payload (`paymentData`,
already a string; `none` models a nil payload) into the key's metadata
before the row is persisted, and triggers the best-effort notification
send, which has no store effect and whose failure is only logged.
Returns the updated store and the returned Go `error`. -/
def processSuccessfulPayment (st : Store) (email name productIDStr : String)
    (paymentData : Option String) (freshCustomerID freshKeyID : Nat)
    (freshKey : String) (now : GoTime) : GoResult (Store × Option String) :=
  if email = "" ∨ productIDStr = "" then .ok (st, none)
  else
    match goAtoi productIDStr with
    | none => .ok (st, none)
    | some productID =>
      match st.products.find? fun p => (p.ID : Int) == productID with
      | none => .ok (st, none)
      | some product =>
        match FindOrCreateByEmail st.customers email name freshCustomerID with
        | .panicked => .panicked
        | .ok (customer, customers2) =>
          let licenseKey := product.GenerateLicenseKeyFor customer now freshKey freshKeyID
          let licenseKey2 :=
            match paymentData with
            | some data => { licenseKey with Metadata := data }
            | none => licenseKey
          .ok ({ st with customers := customers2,
                         licenseKeys := st.licenseKeys ++ [licenseKey2] }, none)

/-- C8: whenever the email is empty, the product identifier fails to
parse (in particular when it is empty), or no product carries the parsed
identifier, `processSuccessfulPayment` returns a nil error and the store
is unchanged — no customer row and no license-key row is created. -/
theorem c8_malformed_event_swallowed (st : Store) (email name productIDStr : String)
    (paymentData : Option String) (fcid fkid : Nat) (freshKey : String) (now : GoTime)
    (h : email = "" ∨ goAtoi productIDStr = none ∨
      ∀ productID, goAtoi productIDStr = some productID →
        (st.products.find? fun p => (p.ID : Int) == productID) = none) :
    processSuccessfulPayment st email name productIDStr paymentData fcid fkid freshKey now =
      .ok (st, none) := by
  rw [processSuccessfulPayment]
  by_cases he : email = "" ∨ productIDStr = ""
  · rw [if_pos he]
  · rw [if_neg he]
    rcases h with h | h | h
    · exact absurd (Or.inl h) he
    · rw [h]
    · cases hA : goAtoi productIDStr with
      | none => rfl
      | some pid =>
        dsimp only
        rw [h pid hA]

/-- Witness for C8: an event with an empty email leaves the empty store
untouched and reports no error. -/
theorem c8_malformed_event_swallowed_witness :
    processSuccessfulPayment ⟨[], [], []⟩ "" "A B" "1" none 1 1 "FRESHKEY" 0 =
      .ok (⟨[], [], []⟩, none) :=
  c8_malformed_event_swallowed ⟨[], [], []⟩ "" "A B" "1" none 1 1 "FRESHKEY" 0
    (Or.inl rfl)

/-- Response body of the license-verification endpoint: `failure` is the
JSON object with `success = false` (the body used verbatim by every 404
and by the 500), `purchase lk` stands for `lk.ToAPIResponse()`. -/
inductive VerifyBody where
  | failure
  | purchase (lk : LicenseKey)
deriving Repr, DecidableEq

/-- Embedding of `APIHandler.VerifyLicense`: form values `product_id`,
`license_key` and `increment_uses_count`; every lookup failure and the
invalid-key case answer 404 with the `failure` body; a valid key is
incremented (unless `increment_uses_count` is the string `"false"`) and
answered 200 with its API response.  Returns the HTTP status, the body
and the possibly-updated store. -/
def VerifyLicense (now : GoTime) (st : Store)
    (productIDStr licenseKeyStr incrementUsesStr : String) :
    (Nat × VerifyBody) × Store :=
  if productIDStr = "" ∨ licenseKeyStr = "" then ((404, .failure), st)
  else
    match goAtoi productIDStr with
    | none => ((404, .failure), st)
    | some productID =>
      match st.products.find? fun p => (p.ID : Int) == productID with
      | none => ((404, .failure), st)
      | some _ =>
        match st.licenseKeys.find? fun lk =>
            (lk.ProductID : Int) == productID && lk.Key == licenseKeyStr with
        | none => ((404, .failure), st)
        | some license =>
          if !(license.IsValidForUse now) then ((404, .failure), st)
          else
            if incrementUsesStr ≠ "false" then
              match license.IncrementUsage now with
              | .error _ => ((500, .failure), st)
              | .ok license2 =>
                ((200, .purchase license2),
                 { st with licenseKeys := st.licenseKeys.map fun lk =>
                     if lk.ID == license.ID then license2 else lk })
            else ((200, .purchase license), st)

/-- C10: when the `(product_id, key)` pair matches a stored key that
fails `IsValidForUse`, `VerifyLicense` answers exactly `(404, failure)`
and leaves the store alone — the same outcome as when no matching key row
exists at all (second conjunct, with every matching row removed), so a
caller cannot distinguish an invalid existing key from a missing one. -/
theorem c10_invalid_key_indistinguishable (now : GoTime) (st : Store)
    (productIDStr licenseKeyStr incrementUsesStr : String) (pid : Int)
    (license : LicenseKey)
    (hpid : goAtoi productIDStr = some pid)
    (hK : (st.licenseKeys.find? fun lk =>
        (lk.ProductID : Int) == pid && lk.Key == licenseKeyStr) = some license)
    (hinv : license.IsValidForUse now = false) :
    VerifyLicense now st productIDStr licenseKeyStr incrementUsesStr =
      ((404, VerifyBody.failure), st) ∧
    VerifyLicense now
        { st with licenseKeys := st.licenseKeys.filter fun lk =>
            !((lk.ProductID : Int) == pid && lk.Key == licenseKeyStr) }
        productIDStr licenseKeyStr incrementUsesStr =
      ((404, VerifyBody.failure),
       { st with licenseKeys := st.licenseKeys.filter fun lk =>
           !((lk.ProductID : Int) == pid && lk.Key == licenseKeyStr) }) := by
  constructor
  · rw [VerifyLicense]
    by_cases h0 : productIDStr = "" ∨ licenseKeyStr = ""
    · rw [if_pos h0]
    · rw [if_neg h0, hpid]
      dsimp only
      cases hP : st.products.find? fun p => (p.ID : Int) == pid with
      | none => rfl
      | some p =>
        dsimp only
        rw [hK]
        dsimp only
        rw [hinv]
        simp
  · rw [VerifyLicense]
    by_cases h0 : productIDStr = "" ∨ licenseKeyStr = ""
    · rw [if_pos h0]
    · rw [if_neg h0, hpid]
      dsimp only
      cases hP : st.products.find? fun p => (p.ID : Int) == pid with
      | none => rfl
      | some p =>
        dsimp only
        have hnone : ((st.licenseKeys.filter fun lk =>
            !((lk.ProductID : Int) == pid && lk.Key == licenseKeyStr)).find? fun lk =>
            (lk.ProductID : Int) == pid && lk.Key == licenseKeyStr) = none := by
          rw [List.find?_eq_none]
          intro lk hlk
          have hneg := (List.mem_filter.mp hlk).2
          simp only [Bool.not_eq_eq_eq_not, Bool.not_true] at hneg
          simp [hneg]
        rw [hnone]

/-- A product used by the C10 and C7 witnesses. -/
def prod1 : Product :=
  { ID := 1, Name := "Widget", Description := "", Version := "1.0.0",
    DefaultExpirationDays := 365, DefaultUsageLimit := 1 }

/-- A revoked key for `prod1`, used by the C10 witness. -/
def revokedKey : LicenseKey :=
  { ID := 9, Key := "REVOKED-KEY", ProductID := 1, CustomerID := 1,
    ExpiresAt := none, MaxActivations := 1, CurrentActivations := 0,
    UsageLimit := 1, UsageCount := 0, Metadata := "", Status := "revoked",
    IsTrial := false, LastValidatedAt := none }

/-- Witness for C10: verifying the revoked key of `prod1` yields the
`(404, failure)` outcome even though the key row exists. -/
theorem c10_invalid_key_indistinguishable_witness :
    VerifyLicense 0 ⟨[prod1], [], [revokedKey]⟩ "1" "REVOKED-KEY" "true" =
      ((404, VerifyBody.failure), ⟨[prod1], [], [revokedKey]⟩) :=
  (c10_invalid_key_indistinguishable 0 ⟨[prod1], [], [revokedKey]⟩
    "1" "REVOKED-KEY" "true" 1 revokedKey (by decide) (by decide) (by decide)).1

/-- SQLite-level delete of a product row, as configured by
`database.New` (`_foreign_keys=on`, and GORM migrates the
`license_keys.product_id` constraint): deleting a row still referenced
by a license key fails with the store's foreign-key error; otherwise the
row (if any) is removed and the statement succeeds (deleting a missing
id affects zero rows and is not an error). -/
def storeDeleteProduct (products : List Product) (licenseKeys : List LicenseKey)
    (id : Int) : Except String (List Product) :=
  if (products.any fun p => (p.ID : Int) == id) &&
      (licenseKeys.any fun lk => (lk.ProductID : Int) == id) then
    .error "FOREIGN KEY constraint failed"
  else .ok (products.filter fun p => !((p.ID : Int) == id))

/-- Outcome of the delete handler: HTTP status (302 redirect on success,
500 on a store error), the resulting products table, and whether the
`DELETE` statement was issued to the store (as opposed to the request
being rejected by a handler-level pre-check before touching the store). -/
structure DeleteOutcome where
  status : Nat
  products : List Product
  issuedDelete : Bool
deriving Repr, DecidableEq

/-- Embedding of `ProductsHandler.Delete`: the handler parses the path
id (`id` is the parsed value; Go's `Atoi` yields 0 on a parse failure)
and immediately issues `db.Delete(&models.Product{}, id)` — there is no
handler-level check of the key count — answering 500 on a store error
and a 302 redirect on success. -/
def ProductsHandler.Delete (products : List Product) (licenseKeys : List LicenseKey)
    (id : Int) : DeleteOutcome :=
  match storeDeleteProduct products licenseKeys id with
  | .error _ => { status := 500, products := products, issuedDelete := true }
  | .ok ps => { status := 302, products := ps, issuedDelete := true }

/-- A license key owned by `prod1`, used by the C7 counterexample. -/
def keyOfProd1 : LicenseKey :=
  { ID := 11, Key := "OWNED-KEY", ProductID := 1, CustomerID := 1,
    ExpiresAt := none, MaxActivations := 1, CurrentActivations := 0,
    UsageLimit := 1, UsageCount := 0, Metadata := "", Status := "active",
    IsTrial := false, LastValidatedAt := none }

/-- C7 counterexample: deleting `prod1` while `keyOfProd1` references it
does leave the product row in place, but the delete is issued to the
store and the rejection is the store-level foreign-key exception,
surfaced as a 500 — not a referential-integrity error decided before the
delete is issued (which would answer 400 without touching the store).
This refutes the "decided before the delete is issued" part of the
claim. -/
theorem c7_delete_hits_store :
    ProductsHandler.Delete [prod1] [keyOfProd1] 1 =
      { status := 500, products := [prod1], issuedDelete := true } ∧
    (500 : Nat) ≠ 400 := by
  refine ⟨by decide, by decide⟩

/-- C7 (amended): the handler performs no pre-delete check — the delete
statement always reaches the store.  When some product row carries the
id and some license key references it, the store's foreign-key
enforcement rejects the delete, the handler answers 500, and the
products table is unchanged; when no license key references the id the
delete succeeds with a 302 redirect and the row (if present) is removed. -/
theorem c7_delete_guard_amended (products : List Product)
    (licenseKeys : List LicenseKey) (id : Int) :
    ProductsHandler.Delete products licenseKeys id =
      if (∃ p ∈ products, (p.ID : Int) = id) ∧ (∃ lk ∈ licenseKeys, (lk.ProductID : Int) = id) then
        { status := 500, products := products, issuedDelete := true }
      else
        { status := 302, products := products.filter fun p => !((p.ID : Int) == id),
          issuedDelete := true } := by
  rw [ProductsHandler.Delete, storeDeleteProduct]
  by_cases h : ((products.any fun p => (p.ID : Int) == id) &&
      (licenseKeys.any fun lk => (lk.ProductID : Int) == id)) = true
  · rw [if_pos h]
    rw [Bool.and_eq_true, List.any_eq_true, List.any_eq_true] at h
    simp only [beq_iff_eq] at h
    rw [if_pos h]
  · rw [if_neg h]
    rw [Bool.and_eq_true, List.any_eq_true, List.any_eq_true] at h
    simp only [beq_iff_eq] at h
    rw [if_neg h]

end Matcha
